import Mathlib

/-
Verification development for the syscheck health-check daemon core
(src/main.go): the check-loop + result-store subsystem.

Modelling conventions:
- The Go map `map[string]checkResult` is embedded as an association list
  with unique keys; Go map assignment `m[k] = v` replaces the entry when
  the key is present and appends it otherwise.  Go map iteration order is
  unspecified; every property proved below is insensitive to the order
  fixed by the list.
- The two counters (`successHits`, `failHits`) are Go `int` values that are
  only ever incremented starting from zero; they are embedded as `Nat`.
- `time.Now()` is embedded as an abstract `Nat` clock value threaded into
  each pass; no claim depends on its value.
- The network is embedded as an oracle: a probe outcome is either a
  request-construction error, a send (network/timeout) error, or a
  received response carrying a status code (`Int`, the Go `int`).
- The check loop's external events (ticker ticks and context
  cancellation) are embedded as a list of events consumed in order.
-/

set_option autoImplicit false

namespace Syscheck

/-- Embedding of the Go struct `checkResult` (src/main.go): target URL,
HTTP status code (0 = no response obtained), last error message
(empty = none), and the check timestamp. -/
structure checkResult where
  target : String
  statusCode : Int
  lastError : String
  checkedAt : Nat
deriving DecidableEq

/-- Go map assignment `m[k] = v` on the association-list embedding:
replace the entry for `k` when present, append `(k, v)` otherwise. -/
def mapAssign (m : List (String × checkResult)) (k : String) (v : checkResult) :
    List (String × checkResult) :=
  if m.any (fun p => p.1 == k) then
    m.map (fun p => if p.1 == k then (k, v) else p)
  else
    m ++ [(k, v)]

/-- Go map read `m[k]` on the association-list embedding. -/
def mapLookup (m : List (String × checkResult)) (k : String) : Option checkResult :=
  (m.find? (fun p => p.1 == k)).map Prod.snd

/-- The key set of the embedded map, in list order. -/
def mapKeys (m : List (String × checkResult)) : List String :=
  m.map Prod.fst

/-- Embedding of the Go struct `resultStore` (src/main.go): the result
map plus the two lifetime counters.  The `sync.RWMutex` field has no
sequential content; it is modelled explicitly in the interleaving
semantics further below. -/
structure resultStore where
  results : List (String × checkResult)
  successHits : Nat
  failHits : Nat
deriving DecidableEq

/-- The Go zero value `checkResult{Target: t}` used at initialization. -/
def zeroResult (t : String) : checkResult :=
  { target := t, statusCode := 0, lastError := "", checkedAt := 0 }

/-- Embedding of `newResultStore` (src/main.go): one zero-value entry per
configured target, counters at zero. -/
def newResultStore (targets : List String) : resultStore :=
  { results := targets.foldl (fun m t => mapAssign m t (zeroResult t)) []
  , successHits := 0
  , failHits := 0 }

/-- Embedding of `(*resultStore).update` (src/main.go): replace the entry
for `res.Target` and increment exactly one counter. -/
def resultStore.update (s : resultStore) (res : checkResult) (success : Bool) :
    resultStore :=
  { results := mapAssign s.results res.target res
  , successHits := if success then s.successHits + 1 else s.successHits
  , failHits := if success then s.failHits else s.failHits + 1 }

/-- The copy loop inside `(*resultStore).snapshot` (src/main.go):
`for k, v := range s.results { cp[k] = v }` starting from an empty map. -/
def copyResults (m : List (String × checkResult)) : List (String × checkResult) :=
  m.foldl (fun cp p => mapAssign cp p.1 p.2) []

/-- Embedding of `(*resultStore).snapshot` (src/main.go): a key-by-key
copy of the result map together with the two counter values. -/
def resultStore.snapshot (s : resultStore) :
    List (String × checkResult) × Nat × Nat :=
  (copyResults s.results, s.successHits, s.failHits)

/-- Oracle for one outbound probe: `http.NewRequest` failure, `client.Do`
failure (network error or timeout), or a received response with its
status code. -/
inductive probeOutcome where
  | reqError (msg : String)
  | sendError (msg : String)
  | response (status : Int)
deriving DecidableEq

/-- Embedding of `checkTarget` (src/main.go): returns `(0, the error)` when
the request could not be built or sent, and `(resp.StatusCode, none)` when
any response was received — the status code value is not inspected. -/
def checkTarget (outcome : probeOutcome) : Int × Option String :=
  match outcome with
  | .reqError msg => (0, some msg)
  | .sendError msg => (0, some msg)
  | .response status => (status, none)

/-- One iteration of the `for _, target := range targets` body of
`checkOnce` inside `runCheckLoop` (src/main.go): probe, then feed the
outcome into the store — a failed result (status 0, error message) on
error, the received status with empty error otherwise. -/
def checkOnceStep (probe : String → probeOutcome) (now : Nat)
    (s : resultStore) (target : String) : resultStore :=
  match checkTarget (probe target) with
  | (_, some e) =>
      s.update { target := target, statusCode := 0, lastError := e, checkedAt := now } false
  | (status, none) =>
      s.update { target := target, statusCode := status, lastError := "", checkedAt := now } true

/-- Embedding of the `checkOnce` closure in `runCheckLoop` (src/main.go):
one pass probing every configured target in configured order. -/
def checkOnce (probe : String → probeOutcome) (now : Nat)
    (targets : List String) (s : resultStore) : resultStore :=
  targets.foldl (checkOnceStep probe now) s

/-- External events consumed by the check loop's `select`: a ticker tick
or the context-cancellation signal. -/
inductive loopEvent where
  | tick
  | cancel
deriving DecidableEq

/-- The `for \x7b select ... \x7d` part of `runCheckLoop` (src/main.go):
return on cancellation, perform one pass per tick.  The pass counter `n`
numbers passes and doubles as the abstract clock. -/
def runLoopAux (probes : Nat → String → probeOutcome) (targets : List String) :
    List loopEvent → Nat → resultStore → resultStore
  | [], _, s => s
  | .cancel :: _, _, s => s
  | .tick :: es, n, s => runLoopAux probes targets es (n + 1) (checkOnce (probes n) n targets s)

/-- Embedding of `runCheckLoop` (src/main.go): one immediate pass on
launch, then the event-driven loop. -/
def runCheckLoop (probes : Nat → String → probeOutcome) (targets : List String)
    (s : resultStore) (events : List loopEvent) : resultStore :=
  runLoopAux probes targets events 1 (checkOnce (probes 0) 0 targets s)

/-- Embedding of `deriveStatus` (src/main.go): scan the stored results and
return "degraded" on the first entry with a non-empty error, a status
code at least 400, or a status code of zero; "healthy" otherwise. -/
def deriveStatus : List (String × checkResult) → String
  | [] => "healthy"
  | (_, r) :: rest =>
      if r.lastError ≠ "" ∨ r.statusCode ≥ 400 ∨ r.statusCode = 0 then "degraded"
      else deriveStatus rest

/-- Modelled from the spec words for claim C2 only (spec.md section 8:
"Status Aggregator returns healthy if and only if every stored result has
status code in [200,399] and empty error"), to be compared with the
source-derived `deriveStatus`. -/
def deriveStatusSpec (m : List (String × checkResult)) : String :=
  if ∀ p ∈ m, 200 ≤ p.2.statusCode ∧ p.2.statusCode ≤ 399 ∧ p.2.lastError = "" then
    "healthy"
  else "degraded"

/-- Sum of the two lifetime counters. -/
def totalHits (s : resultStore) : Nat :=
  s.successHits + s.failHits

/-- Folding a sequence of `update` calls over a store. -/
def applyOps (s : resultStore) (ops : List (checkResult × Bool)) : resultStore :=
  ops.foldl (fun st op => st.update op.1 op.2) s

/-- Key-set sanity of a store relative to the configured targets: keys are
duplicate-free and coincide with the configured target set. -/
def storeKeysOK (targets : List String) (s : resultStore) : Prop :=
  (mapKeys s.results).Nodup ∧ ∀ t, t ∈ mapKeys s.results ↔ t ∈ targets

/-
Interleaving semantics for one `update` call running concurrently with one
`snapshot` call, at the granularity of the individual reads and writes the
Go code performs under the `sync.RWMutex`.  The writer executes
`mu.Lock(); results[res.Target] = res; counter++; mu.Unlock()`; the reader
executes `mu.RLock(); copy the map; read successHits; read failHits;
mu.RUnlock()`.  Lock semantics: `Lock` needs no reader and no writer
present; `RLock` needs no writer present.
-/

/-- Program counter of the writer thread running `(*resultStore).update`:
before `mu.Lock()`, lock held, map entry assigned, counter incremented,
after `mu.Unlock()`. -/
inductive UPC where
  | w0
  | w1
  | w2
  | w3
  | w4
deriving DecidableEq

/-- Program counter of the reader thread running `(*resultStore).snapshot`:
before `mu.RLock()`, read lock held, map copied, `successHits` read,
`failHits` read, after `mu.RUnlock()`. -/
inductive RPC where
  | r0
  | r1
  | r2
  | r3
  | r4
  | r5
deriving DecidableEq

/-- The reader's local variables: the copied map and the two counter
values it has read so far. -/
structure SnapBuf where
  resultsRead : Option (List (String × checkResult))
  succRead : Option Nat
  failRead : Option Nat
deriving DecidableEq

/-- A configuration of the two-thread system: the shared store, the
RWMutex state (writer flag, reader count), the two program counters and
the reader's local buffer. -/
structure Config where
  store : resultStore
  writerHeld : Bool
  readerCount : Nat
  upc : UPC
  rpc : RPC
  buf : SnapBuf
deriving DecidableEq

/-- One interleaved execution step of `update res success` against a
concurrent `snapshot`, at the source granularity described above. -/
inductive step (res : checkResult) (success : Bool) : Config → Config → Prop where
  | wLock (c : Config) :
      c.upc = .w0 → c.writerHeld = false → c.readerCount = 0 →
      step res success c { c with writerHeld := true, upc := .w1 }
  | wAssign (c : Config) :
      c.upc = .w1 →
      step res success c
        { c with
          store := { c.store with results := mapAssign c.store.results res.target res }
          upc := .w2 }
  | wInc (c : Config) :
      c.upc = .w2 →
      step res success c
        { c with
          store :=
            { c.store with
              successHits := if success then c.store.successHits + 1 else c.store.successHits
              failHits := if success then c.store.failHits else c.store.failHits + 1 }
          upc := .w3 }
  | wUnlock (c : Config) :
      c.upc = .w3 →
      step res success c { c with writerHeld := false, upc := .w4 }
  | rLock (c : Config) :
      c.rpc = .r0 → c.writerHeld = false →
      step res success c { c with readerCount := c.readerCount + 1, rpc := .r1 }
  | rCopy (c : Config) :
      c.rpc = .r1 →
      step res success c
        { c with
          buf := { c.buf with resultsRead := some (copyResults c.store.results) }
          rpc := .r2 }
  | rSucc (c : Config) :
      c.rpc = .r2 →
      step res success c
        { c with buf := { c.buf with succRead := some c.store.successHits }, rpc := .r3 }
  | rFail (c : Config) :
      c.rpc = .r3 →
      step res success c
        { c with buf := { c.buf with failRead := some c.store.failHits }, rpc := .r4 }
  | rUnlock (c : Config) :
      c.rpc = .r4 →
      step res success c { c with readerCount := c.readerCount - 1, rpc := .r5 }

/-- Both threads at their entry points, lock free, empty reader buffer,
shared store `s`. -/
def initConfig (s : resultStore) : Config :=
  { store := s
  , writerHeld := false
  , readerCount := 0
  , upc := .w0
  , rpc := .r0
  , buf := { resultsRead := none, succRead := none, failRead := none } }

/-- Reachability of a configuration from the initial one by interleaved
steps of the update and the snapshot. -/
def Reach (res : checkResult) (success : Bool) (s : resultStore) (c : Config) : Prop :=
  Relation.ReflTransGen (step res success) (initConfig s) c

/-- The shared store as a function of the writer's program counter. -/
def storeAt (s : resultStore) (res : checkResult) (success : Bool) : UPC → resultStore
  | .w0 => s
  | .w1 => s
  | .w2 => { s with results := mapAssign s.results res.target res }
  | .w3 => s.update res success
  | .w4 => s.update res success

/-- Whether the writer holds the write lock at a given program counter. -/
def writerHolds : UPC → Bool
  | .w1 => true
  | .w2 => true
  | .w3 => true
  | _ => false

/-- Whether the reader holds the read lock at a given program counter. -/
def readerHolds : RPC → Bool
  | .r1 => true
  | .r2 => true
  | .r3 => true
  | .r4 => true
  | _ => false

/-- A completely filled reader buffer holding exactly `st.snapshot`. -/
def fullBuf (st : resultStore) : SnapBuf :=
  { resultsRead := some st.snapshot.1
  , succRead := some st.snapshot.2.1
  , failRead := some st.snapshot.2.2 }

/-- The reader-buffer invariant, by reader program counter: the parts read
so far all come from the current shared store, and a finished buffer is a
snapshot of either the pre-update or the post-update store. -/
def bufInvAt (s : resultStore) (res : checkResult) (success : Bool)
    (r : RPC) (st : resultStore) (b : SnapBuf) : Prop :=
  match r with
  | .r0 => b = { resultsRead := none, succRead := none, failRead := none }
  | .r1 => b = { resultsRead := none, succRead := none, failRead := none }
  | .r2 => b =
      { resultsRead := some (copyResults st.results), succRead := none, failRead := none }
  | .r3 => b =
      { resultsRead := some (copyResults st.results)
      , succRead := some st.successHits
      , failRead := none }
  | .r4 => b = fullBuf st
  | .r5 => b = fullBuf s ∨ b = fullBuf (s.update res success)

/-- The global invariant of the two-thread system, over the configuration
fields. -/
def InvAt (s : resultStore) (res : checkResult) (success : Bool)
    (st : resultStore) (wh : Bool) (rc : Nat) (u : UPC) (r : RPC) (b : SnapBuf) : Prop :=
  st = storeAt s res success u ∧
  wh = writerHolds u ∧
  rc = (if readerHolds r then 1 else 0) ∧
  ¬(writerHolds u = true ∧ readerHolds r = true) ∧
  bufInvAt s res success r st b

/-- The global invariant of the two-thread system. -/
def Inv (s : resultStore) (res : checkResult) (success : Bool) (c : Config) : Prop :=
  InvAt s res success c.store c.writerHeld c.readerCount c.upc c.rpc c.buf

theorem any_key_eq (m : List (String × checkResult)) (k : String) :
    (m.any (fun p => p.1 == k)) = true ↔ k ∈ mapKeys m := by
  rw [List.any_eq_true]
  unfold mapKeys
  rw [List.mem_map]
  constructor
  · rintro ⟨p, hp, he⟩
    exact ⟨p, hp, by simpa using he⟩
  · rintro ⟨p, hp, he⟩
    exact ⟨p, hp, by simpa using he⟩

theorem mapAssign_of_mem (m : List (String × checkResult)) (k : String) (v : checkResult)
    (h : k ∈ mapKeys m) :
    mapAssign m k v = m.map (fun p => if p.1 == k then (k, v) else p) := by
  unfold mapAssign
  rw [if_pos ((any_key_eq m k).mpr h)]

theorem mapAssign_of_not_mem (m : List (String × checkResult)) (k : String) (v : checkResult)
    (h : k ∉ mapKeys m) : mapAssign m k v = m ++ [(k, v)] := by
  unfold mapAssign
  rw [if_neg (fun ha => h ((any_key_eq m k).mp ha))]

theorem mapLookup_cons (p : String × checkResult) (rest : List (String × checkResult))
    (t : String) :
    mapLookup (p :: rest) t = if p.1 = t then some p.2 else mapLookup rest t := by
  by_cases h : p.1 = t
  · rw [if_pos h]
    unfold mapLookup
    rw [List.find?_cons_of_pos _ (by simpa using h)]
    rfl
  · rw [if_neg h]
    unfold mapLookup
    rw [List.find?_cons_of_neg _ (by simpa using h)]

theorem mapKeys_mapAssign (m : List (String × checkResult)) (k : String) (v : checkResult) :
    mapKeys (mapAssign m k v) =
      if k ∈ mapKeys m then mapKeys m else mapKeys m ++ [k] := by
  by_cases h : k ∈ mapKeys m
  · rw [if_pos h, mapAssign_of_mem m k v h]
    unfold mapKeys
    rw [List.map_map]
    apply List.map_congr_left
    intro p hp
    by_cases hpk : p.1 = k
    · simp [hpk]
    · simp [hpk]
  · rw [if_neg h, mapAssign_of_not_mem m k v h]
    simp [mapKeys]

theorem mapKeys_mapAssign_nodup (m : List (String × checkResult)) (k : String)
    (v : checkResult) (h : (mapKeys m).Nodup) : (mapKeys (mapAssign m k v)).Nodup := by
  rw [mapKeys_mapAssign]
  by_cases hk : k ∈ mapKeys m
  · rwa [if_pos hk]
  · rw [if_neg hk]
    simp [List.nodup_append, h, hk]

theorem mem_mapKeys_mapAssign (m : List (String × checkResult)) (k t : String)
    (v : checkResult) : t ∈ mapKeys (mapAssign m k v) ↔ t ∈ mapKeys m ∨ t = k := by
  rw [mapKeys_mapAssign]
  by_cases hk : k ∈ mapKeys m
  · rw [if_pos hk]
    constructor
    · exact fun h => Or.inl h
    · rintro (h | rfl)
      · exact h
      · exact hk
  · rw [if_neg hk]
    simp

theorem mapKeys_cons (p : String × checkResult) (rest : List (String × checkResult)) :
    mapKeys (p :: rest) = p.1 :: mapKeys rest := rfl

theorem map_noKey_id (m : List (String × checkResult)) (k : String) (v : checkResult)
    (h : k ∉ mapKeys m) :
    m.map (fun p => if p.1 == k then (k, v) else p) = m := by
  induction m with
  | nil => rfl
  | cons p rest ih =>
      rw [mapKeys_cons] at h
      have hpk : ¬(p.1 == k) = true := by
        simp only [beq_iff_eq]
        exact fun he => h (he ▸ List.mem_cons_self p.1 (mapKeys rest))
      have hk : k ∉ mapKeys rest := fun hr => h (List.mem_cons_of_mem p.1 hr)
      rw [List.map_cons, if_neg hpk, ih hk]

theorem mapLookup_mapAssign_self (m : List (String × checkResult)) (k : String)
    (v : checkResult) : mapLookup (mapAssign m k v) k = some v := by
  by_cases h : k ∈ mapKeys m
  · rw [mapAssign_of_mem m k v h]
    induction m with
    | nil => simp [mapKeys] at h
    | cons p rest ih =>
        rw [mapKeys_cons] at h
        by_cases hpk : p.1 = k
        · rw [List.map_cons, if_pos (by simpa using hpk), mapLookup_cons, if_pos rfl]
        · have hk : k ∈ mapKeys rest := by
            rcases List.mem_cons.mp h with he | hr
            · exact absurd he.symm hpk
            · exact hr
          rw [List.map_cons, if_neg (by simpa using hpk), mapLookup_cons, if_neg hpk]
          exact ih hk
  · rw [mapAssign_of_not_mem m k v h]
    induction m with
    | nil => rw [List.nil_append, mapLookup_cons, if_pos rfl]
    | cons p rest ih =>
        rw [mapKeys_cons] at h
        have hpk : ¬p.1 = k := fun he => h (he ▸ List.mem_cons_self p.1 (mapKeys rest))
        have hk : k ∉ mapKeys rest := fun hr => h (List.mem_cons_of_mem p.1 hr)
        rw [List.cons_append, mapLookup_cons, if_neg hpk]
        exact ih hk

theorem mapLookup_mapAssign_other (m : List (String × checkResult)) (k t : String)
    (v : checkResult) (hne : t ≠ k) : mapLookup (mapAssign m k v) t = mapLookup m t := by
  by_cases h : k ∈ mapKeys m
  · rw [mapAssign_of_mem m k v h]
    clear h
    induction m with
    | nil => rfl
    | cons p rest ih =>
        by_cases hpk : p.1 = k
        · have hpt : ¬p.1 = t := fun he => hne (he ▸ hpk)
          rw [List.map_cons, if_pos (by simpa using hpk), mapLookup_cons, mapLookup_cons,
            if_neg (fun he : k = t => hne he.symm), if_neg hpt]
          exact ih
        · rw [List.map_cons, if_neg (by simpa using hpk), mapLookup_cons, mapLookup_cons]
          by_cases hpt : p.1 = t
          · rw [if_pos hpt, if_pos hpt]
          · rw [if_neg hpt, if_neg hpt]
            exact ih
  · rw [mapAssign_of_not_mem m k v h]
    clear h
    induction m with
    | nil =>
        rw [List.nil_append, mapLookup_cons, if_neg (fun he : k = t => hne he.symm)]
    | cons p rest ih =>
        rw [List.cons_append, mapLookup_cons, mapLookup_cons]
        by_cases hpt : p.1 = t
        · rw [if_pos hpt, if_pos hpt]
        · rw [if_neg hpt, if_neg hpt]
          exact ih

theorem mapLookup_isSome_iff (m : List (String × checkResult)) (k : String) :
    (mapLookup m k).isSome = true ↔ k ∈ mapKeys m := by
  induction m with
  | nil => simp [mapLookup, mapKeys]
  | cons p rest ih =>
      rw [mapLookup_cons, mapKeys_cons]
      by_cases hpt : p.1 = k
      · simp [hpt]
      · have hkp : ¬k = p.1 := fun he => hpt he.symm
        simp [hpt, hkp, ih]

theorem foldl_mapAssign_append (m acc : List (String × checkResult))
    (hdisj : ∀ p ∈ m, p.1 ∉ mapKeys acc) (hnd : (mapKeys m).Nodup) :
    m.foldl (fun cp p => mapAssign cp p.1 p.2) acc = acc ++ m := by
  induction m generalizing acc with
  | nil => simp
  | cons p rest ih =>
      rw [mapKeys_cons] at hnd
      have hnotin : p.1 ∉ mapKeys acc := hdisj p (List.mem_cons_self p rest)
      rw [List.foldl_cons, mapAssign_of_not_mem acc p.1 p.2 hnotin]
      have hstep : acc ++ [(p.1, p.2)] = acc ++ [p] := by rw [Prod.mk.eta]
      rw [hstep, ih (acc ++ [p])]
      · rw [List.append_assoc, List.singleton_append]
      · intro q hq
        rw [mapKeys] at *
        rw [List.map_append]
        intro hmem
        rcases List.mem_append.mp hmem with hacc | hsing
        · exact hdisj q (List.mem_cons_of_mem p hq) hacc
        · have hq1 : q.1 = p.1 := by simpa using hsing
          exact (List.nodup_cons.mp hnd).1 (hq1 ▸ List.mem_map_of_mem Prod.fst hq)
      · exact (List.nodup_cons.mp hnd).2

theorem copyResults_eq (m : List (String × checkResult)) (h : (mapKeys m).Nodup) :
    copyResults m = m := by
  unfold copyResults
  rw [foldl_mapAssign_append m [] (by simp [mapKeys]) h, List.nil_append]

theorem initStore_foldl_keys (l : List String) (acc : List (String × checkResult))
    (h : (mapKeys acc).Nodup) :
    (mapKeys (l.foldl (fun m t => mapAssign m t (zeroResult t)) acc)).Nodup ∧
    ∀ t, t ∈ mapKeys (l.foldl (fun m t => mapAssign m t (zeroResult t)) acc) ↔
      t ∈ mapKeys acc ∨ t ∈ l := by
  induction l generalizing acc with
  | nil => simp [h]
  | cons x rest ih =>
      rw [List.foldl_cons]
      have hnd : (mapKeys (mapAssign acc x (zeroResult x))).Nodup :=
        mapKeys_mapAssign_nodup acc x (zeroResult x) h
      refine ⟨(ih _ hnd).1, fun t => ?_⟩
      rw [(ih _ hnd).2 t, mem_mapKeys_mapAssign]
      constructor
      · rintro ((hin | he) | hrest)
        · exact Or.inl hin
        · exact Or.inr (he ▸ List.mem_cons_self x rest)
        · exact Or.inr (List.mem_cons_of_mem x hrest)
      · rintro (hin | hx)
        · exact Or.inl (Or.inl hin)
        · rcases List.mem_cons.mp hx with he | hrest
          · exact Or.inl (Or.inr he)
          · exact Or.inr hrest

theorem mapAssign_forall (P : String × checkResult → Prop)
    (m : List (String × checkResult)) (k : String) (v : checkResult)
    (hm : ∀ p ∈ m, P p) (hv : P (k, v)) : ∀ p ∈ mapAssign m k v, P p := by
  by_cases h : k ∈ mapKeys m
  · rw [mapAssign_of_mem m k v h]
    intro p hp
    rcases List.mem_map.mp hp with ⟨q, hq, he⟩
    by_cases hqk : q.1 = k
    · rw [← he]
      simpa [hqk] using hv
    · rw [← he]
      simpa [hqk] using hm q hq
  · rw [mapAssign_of_not_mem m k v h]
    intro p hp
    rcases List.mem_append.mp hp with hin | hsing
    · exact hm p hin
    · rw [List.mem_singleton.mp hsing]
      exact hv

theorem initStore_foldl_values (l : List String) (acc : List (String × checkResult))
    (h : ∀ p ∈ acc, p.2.statusCode = 0 ∧ p.2.lastError = "") :
    ∀ p ∈ l.foldl (fun m t => mapAssign m t (zeroResult t)) acc,
      p.2.statusCode = 0 ∧ p.2.lastError = "" := by
  induction l generalizing acc with
  | nil => exact h
  | cons x rest ih =>
      rw [List.foldl_cons]
      exact ih _ (mapAssign_forall _ acc x (zeroResult x) h (by simp [zeroResult]))

theorem newResultStore_keysOK (targets : List String) :
    storeKeysOK targets (newResultStore targets) := by
  have h := initStore_foldl_keys targets [] (by simp [mapKeys])
  unfold storeKeysOK newResultStore
  refine ⟨h.1, fun t => ?_⟩
  rw [h.2 t]
  simp [mapKeys]

theorem storeKeysOK_update (targets : List String) (s : resultStore) (res : checkResult)
    (b : Bool) (h : storeKeysOK targets s) (hres : res.target ∈ targets) :
    storeKeysOK targets (s.update res b) := by
  obtain ⟨hnd, hmem⟩ := h
  constructor
  · exact mapKeys_mapAssign_nodup s.results res.target res hnd
  · intro t
    rw [resultStore.update]
    rw [mem_mapKeys_mapAssign]
    constructor
    · rintro (hin | he)
      · exact (hmem t).mp hin
      · exact he ▸ hres
    · intro ht
      exact Or.inl ((hmem t).mpr ht)

theorem deriveStatus_cons (p : String × checkResult) (rest : List (String × checkResult)) :
    deriveStatus (p :: rest) =
      if p.2.lastError ≠ "" ∨ p.2.statusCode ≥ 400 ∨ p.2.statusCode = 0 then "degraded"
      else deriveStatus rest := by
  rfl

theorem deriveStatus_healthy_iff (m : List (String × checkResult)) :
    deriveStatus m = "healthy" ↔
      ∀ p ∈ m, p.2.lastError = "" ∧ p.2.statusCode < 400 ∧ p.2.statusCode ≠ 0 := by
  induction m with
  | nil => simp [deriveStatus]
  | cons p rest ih =>
      rw [deriveStatus_cons]
      by_cases hbad : p.2.lastError ≠ "" ∨ p.2.statusCode ≥ 400 ∨ p.2.statusCode = 0
      · rw [if_pos hbad]
        constructor
        · intro h
          exact absurd h (by decide)
        · intro h
          rcases h p (List.mem_cons_self p rest) with ⟨h1, h2, h3⟩
          rcases hbad with hb | hb | hb
          · exact absurd h1 hb
          · omega
          · exact absurd hb h3
      · rw [if_neg hbad]
        push_neg at hbad
        rw [ih]
        constructor
        · intro h
          intro q hq
          rcases List.mem_cons.mp hq with he | hr
          · exact he ▸ ⟨hbad.1, hbad.2.1, hbad.2.2⟩
          · exact h q hr
        · intro h q hq
          exact h q (List.mem_cons_of_mem p hq)

theorem deriveStatus_cases (m : List (String × checkResult)) :
    deriveStatus m = "healthy" ∨ deriveStatus m = "degraded" := by
  induction m with
  | nil => exact Or.inl rfl
  | cons p rest ih =>
      rw [deriveStatus_cons]
      by_cases hbad : p.2.lastError ≠ "" ∨ p.2.statusCode ≥ 400 ∨ p.2.statusCode = 0
      · rw [if_pos hbad]
        exact Or.inr rfl
      · rw [if_neg hbad]
        exact ih

theorem totalHits_update (s : resultStore) (res : checkResult) (b : Bool) :
    totalHits (s.update res b) = totalHits s + 1 := by
  cases b <;> simp [totalHits, resultStore.update] <;> omega

theorem counters_mono_update (s : resultStore) (res : checkResult) (b : Bool) :
    s.successHits ≤ (s.update res b).successHits ∧
    s.failHits ≤ (s.update res b).failHits := by
  cases b <;> simp [resultStore.update]

theorem totalHits_checkOnceStep (probe : String → probeOutcome) (now : Nat)
    (s : resultStore) (t : String) :
    totalHits (checkOnceStep probe now s t) = totalHits s + 1 := by
  cases hpt : probe t <;> simp [checkOnceStep, checkTarget, hpt, totalHits_update]

theorem totalHits_checkOnce (probe : String → probeOutcome) (now : Nat)
    (l : List String) (s : resultStore) :
    totalHits (checkOnce probe now l s) = totalHits s + l.length := by
  unfold checkOnce
  induction l generalizing s with
  | nil => simp
  | cons t rest ih =>
      rw [List.foldl_cons, ih, totalHits_checkOnceStep, List.length_cons]
      omega

theorem totalHits_runLoopAux_ticks (probes : Nat → String → probeOutcome)
    (targets : List String) (k n : Nat) (s : resultStore) :
    totalHits (runLoopAux probes targets (List.replicate k .tick) n s) =
      totalHits s + k * targets.length := by
  induction k generalizing n s with
  | zero => simp [runLoopAux]
  | succ j ih =>
      rw [List.replicate_succ]
      rw [runLoopAux, ih, totalHits_checkOnce]
      ring

theorem readerHolds_false_cases (r : RPC) (h : readerHolds r = false) :
    r = .r0 ∨ r = .r5 := by
  cases r <;> simp [readerHolds] at h ⊢

theorem writerHolds_false_cases (u : UPC) (h : writerHolds u = false) :
    u = .w0 ∨ u = .w4 := by
  cases u <;> simp [writerHolds] at h ⊢

theorem Inv_initConfig (s : resultStore) (res : checkResult) (success : Bool) :
    Inv s res success (initConfig s) := by
  refine ⟨rfl, rfl, rfl, ?_, rfl⟩
  rintro ⟨h1, -⟩
  exact Bool.noConfusion h1

theorem Inv_step (s : resultStore) (res : checkResult) (success : Bool) (c c2 : Config)
    (hstep : step res success c c2) (hInv : Inv s res success c) : Inv s res success c2 := by
  obtain ⟨hst, hw, hr, hex, hbuf⟩ := hInv
  cases hstep with
  | wLock h1 h2 h3 =>
      have hrd : readerHolds c.rpc = false := by
        cases hh : readerHolds c.rpc with
        | false => rfl
        | true =>
            rw [hh] at hr
            simp at hr
            rw [h3] at hr
            exact absurd hr (by decide)
      refine ⟨?_, rfl, ?_, ?_, ?_⟩
      · show c.store = storeAt s res success .w1
        rw [hst, h1]
        rfl
      · show c.readerCount = if readerHolds c.rpc then 1 else 0
        exact hr
      · rintro ⟨-, hrh⟩
        rw [hrd] at hrh
        exact Bool.noConfusion hrh
      · show bufInvAt s res success c.rpc c.store c.buf
        exact hbuf
  | wAssign h1 =>
      have hwt : writerHolds c.upc = true := by
        rw [h1]
        rfl
      have hrd : readerHolds c.rpc = false := by
        cases hh : readerHolds c.rpc with
        | false => rfl
        | true => exact absurd ⟨hwt, hh⟩ hex
      refine ⟨?_, ?_, ?_, ?_, ?_⟩
      · show { c.store with results := mapAssign c.store.results res.target res } =
          storeAt s res success .w2
        rw [hst, h1]
        rfl
      · show c.writerHeld = writerHolds .w2
        rw [hw, h1]
        rfl
      · show c.readerCount = if readerHolds c.rpc then 1 else 0
        exact hr
      · rintro ⟨-, hrh⟩
        rw [hrd] at hrh
        exact Bool.noConfusion hrh
      · show bufInvAt s res success c.rpc
          { c.store with results := mapAssign c.store.results res.target res } c.buf
        rcases readerHolds_false_cases c.rpc hrd with h5 | h5 <;> rw [h5] at hbuf ⊢
        · exact hbuf
        · exact hbuf
  | wInc h1 =>
      have hwt : writerHolds c.upc = true := by
        rw [h1]
        rfl
      have hrd : readerHolds c.rpc = false := by
        cases hh : readerHolds c.rpc with
        | false => rfl
        | true => exact absurd ⟨hwt, hh⟩ hex
      refine ⟨?_, ?_, ?_, ?_, ?_⟩
      · show { c.store with
            successHits := if success then c.store.successHits + 1 else c.store.successHits
            failHits := if success then c.store.failHits else c.store.failHits + 1 } =
          storeAt s res success .w3
        rw [hst, h1]
        rfl
      · show c.writerHeld = writerHolds .w3
        rw [hw, h1]
        rfl
      · show c.readerCount = if readerHolds c.rpc then 1 else 0
        exact hr
      · rintro ⟨-, hrh⟩
        rw [hrd] at hrh
        exact Bool.noConfusion hrh
      · show bufInvAt s res success c.rpc
          { c.store with
            successHits := if success then c.store.successHits + 1 else c.store.successHits
            failHits := if success then c.store.failHits else c.store.failHits + 1 } c.buf
        rcases readerHolds_false_cases c.rpc hrd with h5 | h5 <;> rw [h5] at hbuf ⊢
        · exact hbuf
        · exact hbuf
  | wUnlock h1 =>
      refine ⟨?_, rfl, ?_, ?_, ?_⟩
      · show c.store = storeAt s res success .w4
        rw [hst, h1]
        rfl
      · show c.readerCount = if readerHolds c.rpc then 1 else 0
        exact hr
      · rintro ⟨hwh, -⟩
        exact Bool.noConfusion hwh
      · show bufInvAt s res success c.rpc c.store c.buf
        exact hbuf
  | rLock h1 h2 =>
      have hwf : writerHolds c.upc = false := by rw [← hw, h2]
      refine ⟨?_, ?_, ?_, ?_, ?_⟩
      · show c.store = storeAt s res success c.upc
        exact hst
      · show c.writerHeld = writerHolds c.upc
        exact hw
      · show c.readerCount + 1 = if readerHolds .r1 then 1 else 0
        rw [hr, h1]
        rfl
      · rintro ⟨hwh, -⟩
        rw [hwf] at hwh
        exact Bool.noConfusion hwh
      · show bufInvAt s res success .r1 c.store c.buf
        rw [h1] at hbuf
        exact hbuf
  | rCopy h1 =>
      refine ⟨?_, ?_, ?_, ?_, ?_⟩
      · show c.store = storeAt s res success c.upc
        exact hst
      · show c.writerHeld = writerHolds c.upc
        exact hw
      · show c.readerCount = if readerHolds .r2 then 1 else 0
        rw [hr, h1]
        rfl
      · rintro ⟨hwh, -⟩
        exact hex ⟨hwh, by rw [h1]; rfl⟩
      · show bufInvAt s res success .r2 c.store
          { c.buf with resultsRead := some (copyResults c.store.results) }
        rw [h1] at hbuf
        rw [show c.buf = _ from hbuf]
        rfl
  | rSucc h1 =>
      refine ⟨?_, ?_, ?_, ?_, ?_⟩
      · show c.store = storeAt s res success c.upc
        exact hst
      · show c.writerHeld = writerHolds c.upc
        exact hw
      · show c.readerCount = if readerHolds .r3 then 1 else 0
        rw [hr, h1]
        rfl
      · rintro ⟨hwh, -⟩
        exact hex ⟨hwh, by rw [h1]; rfl⟩
      · show bufInvAt s res success .r3 c.store
          { c.buf with succRead := some c.store.successHits }
        rw [h1] at hbuf
        rw [show c.buf = _ from hbuf]
        rfl
  | rFail h1 =>
      refine ⟨?_, ?_, ?_, ?_, ?_⟩
      · show c.store = storeAt s res success c.upc
        exact hst
      · show c.writerHeld = writerHolds c.upc
        exact hw
      · show c.readerCount = if readerHolds .r4 then 1 else 0
        rw [hr, h1]
        rfl
      · rintro ⟨hwh, -⟩
        exact hex ⟨hwh, by rw [h1]; rfl⟩
      · show bufInvAt s res success .r4 c.store
          { c.buf with failRead := some c.store.failHits }
        rw [h1] at hbuf
        rw [show c.buf = _ from hbuf]
        rfl
  | rUnlock h1 =>
      have hwf : writerHolds c.upc = false := by
        cases hh : writerHolds c.upc with
        | false => rfl
        | true => exact absurd ⟨hh, by rw [h1]; rfl⟩ hex
      refine ⟨?_, ?_, ?_, ?_, ?_⟩
      · show c.store = storeAt s res success c.upc
        exact hst
      · show c.writerHeld = writerHolds c.upc
        exact hw
      · show c.readerCount - 1 = if readerHolds .r5 then 1 else 0
        rw [hr, h1]
        rfl
      · rintro ⟨-, hrh⟩
        exact Bool.noConfusion hrh
      · show c.buf = fullBuf s ∨ c.buf = fullBuf (s.update res success)
        rw [h1] at hbuf
        rcases writerHolds_false_cases c.upc hwf with h6 | h6
        · left
          rw [show c.buf = _ from hbuf, hst, h6]
          rfl
        · right
          rw [show c.buf = _ from hbuf, hst, h6]
          rfl

theorem Inv_reach (s : resultStore) (res : checkResult) (success : Bool) (c : Config)
    (h : Reach res success s c) : Inv s res success c := by
  unfold Reach at h
  induction h with
  | refl => exact Inv_initConfig s res success
  | tail hsteps hstep ih => exact Inv_step s res success _ _ hstep ih

theorem checkOnceStep_response (probe : String → probeOutcome) (now : Nat)
    (s : resultStore) (t : String) (st : Int) (h : probe t = .response st) :
    checkOnceStep probe now s t =
      s.update { target := t, statusCode := st, lastError := "", checkedAt := now } true := by
  unfold checkOnceStep
  rw [h]
  rfl

theorem checkOnceStep_reqError (probe : String → probeOutcome) (now : Nat)
    (s : resultStore) (t : String) (msg : String) (h : probe t = .reqError msg) :
    checkOnceStep probe now s t =
      s.update { target := t, statusCode := 0, lastError := msg, checkedAt := now } false := by
  unfold checkOnceStep
  rw [h]
  rfl

theorem checkOnceStep_sendError (probe : String → probeOutcome) (now : Nat)
    (s : resultStore) (t : String) (msg : String) (h : probe t = .sendError msg) :
    checkOnceStep probe now s t =
      s.update { target := t, statusCode := 0, lastError := msg, checkedAt := now } false := by
  unfold checkOnceStep
  rw [h]
  rfl

theorem storeKeysOK_checkOnceStep (targets : List String) (probe : String → probeOutcome)
    (now : Nat) (s : resultStore) (t : String) (h : storeKeysOK targets s)
    (ht : t ∈ targets) : storeKeysOK targets (checkOnceStep probe now s t) := by
  cases hpt : probe t with
  | reqError msg =>
      rw [checkOnceStep_reqError probe now s t msg hpt]
      exact storeKeysOK_update targets s _ false h ht
  | sendError msg =>
      rw [checkOnceStep_sendError probe now s t msg hpt]
      exact storeKeysOK_update targets s _ false h ht
  | response st =>
      rw [checkOnceStep_response probe now s t st hpt]
      exact storeKeysOK_update targets s _ true h ht

theorem storeKeysOK_foldl (targets l : List String) (probe : String → probeOutcome)
    (now : Nat) (s : resultStore) (h : storeKeysOK targets s)
    (hsub : ∀ t ∈ l, t ∈ targets) :
    storeKeysOK targets (l.foldl (checkOnceStep probe now) s) := by
  induction l generalizing s with
  | nil => exact h
  | cons t rest ih =>
      rw [List.foldl_cons]
      exact ih _
        (storeKeysOK_checkOnceStep targets probe now s t h (hsub t (List.mem_cons_self t rest)))
        (fun q hq => hsub q (List.mem_cons_of_mem t hq))

theorem storeKeysOK_checkOnce (targets : List String) (probe : String → probeOutcome)
    (now : Nat) (s : resultStore) (h : storeKeysOK targets s) :
    storeKeysOK targets (checkOnce probe now targets s) :=
  storeKeysOK_foldl targets targets probe now s h (fun _ ht => ht)

theorem storeKeysOK_runLoopAux (probes : Nat → String → probeOutcome)
    (targets : List String) (events : List loopEvent) (n : Nat) (s : resultStore)
    (h : storeKeysOK targets s) :
    storeKeysOK targets (runLoopAux probes targets events n s) := by
  induction events generalizing n s with
  | nil => exact h
  | cons e rest ih =>
      cases e with
      | cancel => exact h
      | tick =>
          rw [runLoopAux]
          exact ih _ _ (storeKeysOK_checkOnce targets (probes n) n s h)

theorem storeKeysOK_runCheckLoop (probes : Nat → String → probeOutcome)
    (targets : List String) (events : List loopEvent)
    (h : storeKeysOK targets (newResultStore targets)) :
    storeKeysOK targets (runCheckLoop probes targets (newResultStore targets) events) := by
  unfold runCheckLoop
  exact storeKeysOK_runLoopAux probes targets events 1 _
    (storeKeysOK_checkOnce targets (probes 0) 0 _ h)

theorem counters_mono_applyOps (s : resultStore) (ops : List (checkResult × Bool)) :
    s.successHits ≤ (applyOps s ops).successHits ∧
    s.failHits ≤ (applyOps s ops).failHits := by
  induction ops generalizing s with
  | nil => exact ⟨Nat.le_refl _, Nat.le_refl _⟩
  | cons op rest ih =>
      have h1 := counters_mono_update s op.1 op.2
      have h2 := ih (s.update op.1 op.2)
      unfold applyOps at h2 ⊢
      rw [List.foldl_cons]
      exact ⟨Nat.le_trans h1.1 h2.1, Nat.le_trans h1.2 h2.2⟩

/-- Claim C1 counterexample: on a received response with status 500, the
source `checkTarget` returns `(500, no error)`, and the check-loop body
feeds it to the store as a success: the success counter is incremented and
the failure counter stays 0, contradicting the claim that a status ≥ 400
is surfaced as a failure condition and counted as a failure. -/
theorem claim_C1_counterexample :
    checkTarget (probeOutcome.response 500) = (500, none) ∧
    (checkOnceStep (fun _ => probeOutcome.response 500) 0 (newResultStore ["t"]) "t").successHits = 1 ∧
    (checkOnceStep (fun _ => probeOutcome.response 500) 0 (newResultStore ["t"]) "t").failHits = 0 ∧
    mapLookup (checkOnceStep (fun _ => probeOutcome.response 500) 0
        (newResultStore ["t"]) "t").results "t" =
      some { target := "t", statusCode := 500, lastError := "", checkedAt := 0 } := by
  refine ⟨rfl, rfl, rfl, ?_⟩
  decide

/-- Claim C1 (amended): for every probe in which an HTTP response is
received — regardless of status code, including ≥ 400 — the probe reports
no error, the outcome fed into the Result Store is counted as a success
(success counter incremented, failure counter unchanged), and the stored
result records the actual status code received with an empty error. -/
theorem claim_C1_amended (probe : String → probeOutcome) (now : Nat)
    (s : resultStore) (t : String) (st : Int) (h : probe t = .response st) :
    (checkOnceStep probe now s t).successHits = s.successHits + 1 ∧
    (checkOnceStep probe now s t).failHits = s.failHits ∧
    mapLookup (checkOnceStep probe now s t).results t =
      some { target := t, statusCode := st, lastError := "", checkedAt := now } := by
  rw [checkOnceStep_response probe now s t st h]
  exact ⟨rfl, rfl, mapLookup_mapAssign_self s.results t _⟩

/-- Claim C1 amended witness at a concrete 503 response. -/
theorem claim_C1_amended_witness :
    (checkOnceStep (fun _ => probeOutcome.response 503) 7 (newResultStore ["u"]) "u").successHits =
      (newResultStore ["u"]).successHits + 1 ∧
    (checkOnceStep (fun _ => probeOutcome.response 503) 7 (newResultStore ["u"]) "u").failHits =
      (newResultStore ["u"]).failHits ∧
    mapLookup (checkOnceStep (fun _ => probeOutcome.response 503) 7
        (newResultStore ["u"]) "u").results "u" =
      some { target := "u", statusCode := 503, lastError := "", checkedAt := 7 } :=
  claim_C1_amended (fun _ => probeOutcome.response 503) 7 (newResultStore ["u"]) "u" 503 rfl

/-- Claim C2 counterexample: a stored result with status code 100 and empty
error is outside [200,399], so the claim says "degraded" (as the
spec-worded aggregator returns), but the source `deriveStatus` returns
"healthy". -/
theorem claim_C2_counterexample :
    deriveStatus
        [("t", { target := "t", statusCode := 100, lastError := "", checkedAt := 0 })] =
      "healthy" ∧
    deriveStatusSpec
        [("t", { target := "t", statusCode := 100, lastError := "", checkedAt := 0 })] =
      "degraded" := by
  constructor
  · decide
  · decide

/-- Claim C2 (amended): the Status Aggregator returns "healthy" if and only
if every stored result has an empty error message and a status code that is
nonzero and strictly below 400; in every other case it returns
"degraded". -/
theorem claim_C2_amended (m : List (String × checkResult)) :
    (deriveStatus m = "healthy" ↔
      ∀ p ∈ m, p.2.lastError = "" ∧ p.2.statusCode < 400 ∧ p.2.statusCode ≠ 0) ∧
    (deriveStatus m ≠ "healthy" → deriveStatus m = "degraded") := by
  refine ⟨deriveStatus_healthy_iff m, ?_⟩
  intro h
  rcases deriveStatus_cases m with hc | hc
  · exact absurd hc h
  · exact hc

/-- Claim C2 amended witness at a concrete healthy map. -/
theorem claim_C2_amended_witness :
    deriveStatus [("a", { target := "a", statusCode := 200, lastError := "", checkedAt := 0 })] =
      "healthy" :=
  (claim_C2_amended
    [("a", { target := "a", statusCode := 200, lastError := "", checkedAt := 0 })]).1.mpr
    (by decide)

/-- Claim C3: in every interleaving of one `update` call with a concurrent
`snapshot` call under the RWMutex semantics, a completed snapshot holds
exactly the pre-update state or exactly the post-update state — never a
torn mix of the new map with the old counters or vice versa. -/
theorem claim_C3_update_atomic (s : resultStore) (res : checkResult) (success : Bool)
    (c : Config) (h : Reach res success s c) (hdone : c.rpc = .r5) :
    c.buf = fullBuf s ∨ c.buf = fullBuf (s.update res success) := by
  obtain ⟨-, -, -, -, hbuf⟩ := Inv_reach s res success c h
  rw [hdone] at hbuf
  exact hbuf

/-- Claim C3 witness: a concrete complete reader-only interleaving. -/
theorem claim_C3_witness :
    ({ store := newResultStore ["t"]
     , writerHeld := false
     , readerCount := 0
     , upc := .w0
     , rpc := .r5
     , buf := fullBuf (newResultStore ["t"]) } : Config).buf =
        fullBuf (newResultStore ["t"]) ∨
    ({ store := newResultStore ["t"]
     , writerHeld := false
     , readerCount := 0
     , upc := .w0
     , rpc := .r5
     , buf := fullBuf (newResultStore ["t"]) } : Config).buf =
        fullBuf ((newResultStore ["t"]).update
          { target := "x", statusCode := 200, lastError := "", checkedAt := 1 } true) := by
  refine claim_C3_update_atomic (newResultStore ["t"])
    { target := "x", statusCode := 200, lastError := "", checkedAt := 1 } true _ ?_ rfl
  exact Relation.ReflTransGen.tail
    (Relation.ReflTransGen.tail
      (Relation.ReflTransGen.tail
        (Relation.ReflTransGen.tail
          (Relation.ReflTransGen.tail Relation.ReflTransGen.refl
            (step.rLock _ rfl rfl))
          (step.rCopy _ rfl))
        (step.rSucc _ rfl))
      (step.rFail _ rfl))
    (step.rUnlock _ rfl)

/-- Claim C4: after initialization the store has exactly one entry per
configured target (duplicate-free keys coinciding with the target set);
this is preserved by every `update` whose result targets a configured
target, and therefore holds after any run of the check loop, whose
snapshot then lists exactly the configured targets. -/
theorem claim_C4_store_keys (targets : List String) :
    storeKeysOK targets (newResultStore targets) ∧
    (∀ s res b, storeKeysOK targets s → res.target ∈ targets →
      storeKeysOK targets (resultStore.update s res b)) ∧
    (∀ probes events,
      storeKeysOK targets (runCheckLoop probes targets (newResultStore targets) events) ∧
      ∀ t, t ∈ mapKeys (runCheckLoop probes targets (newResultStore targets) events).snapshot.1 ↔
        t ∈ targets) := by
  refine ⟨newResultStore_keysOK targets, storeKeysOK_update targets, ?_⟩
  intro probes events
  have h := storeKeysOK_runCheckLoop probes targets events (newResultStore_keysOK targets)
  refine ⟨h, fun t => ?_⟩
  show t ∈ mapKeys (copyResults (runCheckLoop probes targets (newResultStore targets) events).results) ↔
    t ∈ targets
  rw [copyResults_eq _ h.1]
  exact h.2 t

/-- Claim C4 witness at one target and one update. -/
theorem claim_C4_witness :
    storeKeysOK ["a"] (newResultStore ["a"]) ∧
    storeKeysOK ["a"] ((newResultStore ["a"]).update
      { target := "a", statusCode := 200, lastError := "", checkedAt := 1 } true) :=
  ⟨(claim_C4_store_keys ["a"]).1,
   (claim_C4_store_keys ["a"]).2.1 (newResultStore ["a"])
     { target := "a", statusCode := 200, lastError := "", checkedAt := 1 } true
     (claim_C4_store_keys ["a"]).1 (by decide)⟩

/-- Claim C5: the two lifetime counters never decrease across any sequence
of update operations, and a run of the check loop with n ticks and no
cancellation — that is, N = n + 1 completed passes — over K = number of
configured targets ends with successCount + failureCount = N × K. -/
theorem claim_C5_counters (s : resultStore) (ops : List (checkResult × Bool))
    (probes : Nat → String → probeOutcome) (targets : List String) (n : Nat) :
    (s.successHits ≤ (applyOps s ops).successHits ∧
     s.failHits ≤ (applyOps s ops).failHits) ∧
    (runCheckLoop probes targets (newResultStore targets)
        (List.replicate n .tick)).successHits +
      (runCheckLoop probes targets (newResultStore targets)
        (List.replicate n .tick)).failHits = (n + 1) * targets.length := by
  refine ⟨counters_mono_applyOps s ops, ?_⟩
  show totalHits (runCheckLoop probes targets (newResultStore targets)
    (List.replicate n .tick)) = (n + 1) * targets.length
  unfold runCheckLoop
  rw [totalHits_runLoopAux_ticks, totalHits_checkOnce]
  rw [show totalHits (newResultStore targets) = 0 from rfl]
  ring

/-- Claim C6: `update` replaces exactly the map entry keyed by the result's
target, leaves the stored result of every other key unchanged, and
increments exactly one of the two counters — the success counter when
`success` is true, the failure counter otherwise — leaving the other
unchanged. -/
theorem claim_C6_update_frame (s : resultStore) (res : checkResult) (b : Bool) :
    mapLookup (s.update res b).results res.target = some res ∧
    (∀ k, k ≠ res.target → mapLookup (s.update res b).results k = mapLookup s.results k) ∧
    (b = true → (s.update res b).successHits = s.successHits + 1 ∧
      (s.update res b).failHits = s.failHits) ∧
    (b = false → (s.update res b).failHits = s.failHits + 1 ∧
      (s.update res b).successHits = s.successHits) := by
  refine ⟨mapLookup_mapAssign_self s.results res.target res, ?_, ?_, ?_⟩
  · intro k hk
    exact mapLookup_mapAssign_other s.results res.target k res hk
  · rintro rfl
    exact ⟨rfl, rfl⟩
  · rintro rfl
    exact ⟨rfl, rfl⟩

/-- Claim C6 witness on a concrete two-target store. -/
theorem claim_C6_witness :
    mapLookup ((newResultStore ["a", "b"]).update
        { target := "a", statusCode := 200, lastError := "", checkedAt := 2 } true).results "a" =
      some { target := "a", statusCode := 200, lastError := "", checkedAt := 2 } ∧
    mapLookup ((newResultStore ["a", "b"]).update
        { target := "a", statusCode := 200, lastError := "", checkedAt := 2 } true).results "b" =
      mapLookup (newResultStore ["a", "b"]).results "b" ∧
    ((newResultStore ["a", "b"]).update
        { target := "a", statusCode := 200, lastError := "", checkedAt := 2 } true).successHits =
      (newResultStore ["a", "b"]).successHits + 1 :=
  ⟨(claim_C6_update_frame (newResultStore ["a", "b"])
      { target := "a", statusCode := 200, lastError := "", checkedAt := 2 } true).1,
   (claim_C6_update_frame (newResultStore ["a", "b"])
      { target := "a", statusCode := 200, lastError := "", checkedAt := 2 } true).2.1 "b"
      (by decide),
   ((claim_C6_update_frame (newResultStore ["a", "b"])
      { target := "a", statusCode := 200, lastError := "", checkedAt := 2 } true).2.2.1 rfl).1⟩

/-- Claim C7: a probe whose request could not be constructed (reqError) or
could not be sent / timed out (sendError) returns status 0 with a non-nil
error; in either case the loop body converts the error into a failed
stored result carrying the error message; and the loop keeps performing
one pass per tick even when every probe fails — only cancellation (or
exhausting the event stream) stops it. -/
theorem claim_C7_probe_errors (msg t : String) (probe : String → probeOutcome)
    (now : Nat) (s : resultStore) (targets : List String) (n : Nat) :
    checkTarget (probeOutcome.reqError msg) = (0, some msg) ∧
    checkTarget (probeOutcome.sendError msg) = (0, some msg) ∧
    (probe t = .reqError msg →
      mapLookup (checkOnceStep probe now s t).results t =
        some { target := t, statusCode := 0, lastError := msg, checkedAt := now } ∧
      (checkOnceStep probe now s t).failHits = s.failHits + 1) ∧
    (probe t = .sendError msg →
      mapLookup (checkOnceStep probe now s t).results t =
        some { target := t, statusCode := 0, lastError := msg, checkedAt := now } ∧
      (checkOnceStep probe now s t).failHits = s.failHits + 1) ∧
    totalHits (runCheckLoop (fun _ _ => .sendError msg) targets (newResultStore targets)
      (List.replicate n .tick)) = (n + 1) * targets.length := by
  refine ⟨rfl, rfl, ?_, ?_, ?_⟩
  · intro h
    rw [checkOnceStep_reqError probe now s t msg h]
    exact ⟨mapLookup_mapAssign_self s.results t _, rfl⟩
  · intro h
    rw [checkOnceStep_sendError probe now s t msg h]
    exact ⟨mapLookup_mapAssign_self s.results t _, rfl⟩
  · unfold runCheckLoop
    rw [totalHits_runLoopAux_ticks, totalHits_checkOnce]
    rw [show totalHits (newResultStore targets) = 0 from rfl]
    ring

/-- Claim C7 witness at a concrete request-construction failure and a
concrete send failure. -/
theorem claim_C7_witness :
    (mapLookup (checkOnceStep (fun _ => probeOutcome.reqError "bad url") 2
        (newResultStore ["a"]) "a").results "a" =
      some { target := "a", statusCode := 0, lastError := "bad url", checkedAt := 2 } ∧
     (checkOnceStep (fun _ => probeOutcome.reqError "bad url") 2
        (newResultStore ["a"]) "a").failHits = (newResultStore ["a"]).failHits + 1) ∧
    (mapLookup (checkOnceStep (fun _ => probeOutcome.sendError "timeout") 3
        (newResultStore ["a"]) "a").results "a" =
      some { target := "a", statusCode := 0, lastError := "timeout", checkedAt := 3 } ∧
     (checkOnceStep (fun _ => probeOutcome.sendError "timeout") 3
        (newResultStore ["a"]) "a").failHits = (newResultStore ["a"]).failHits + 1) :=
  ⟨(claim_C7_probe_errors "bad url" "a" (fun _ => probeOutcome.reqError "bad url") 2
      (newResultStore ["a"]) [] 0).2.2.1 rfl,
   (claim_C7_probe_errors "timeout" "a" (fun _ => probeOutcome.sendError "timeout") 3
      (newResultStore ["a"]) [] 0).2.2.2.1 rfl⟩

/-- Claim C8: on every store whose key list is duplicate-free (true of all
stores built by this program), `snapshot` returns exactly the current map
— the element-by-element copy loop reproduces it — together with the two
counters; being a pure value, the returned triple is independent of the
internal state, so two snapshots with no intervening update are equal. -/
theorem claim_C8_snapshot_copy (s : resultStore) (h : (mapKeys s.results).Nodup) :
    s.snapshot = (s.results, s.successHits, s.failHits) ∧
    s.snapshot = s.snapshot := by
  refine ⟨?_, rfl⟩
  show (copyResults s.results, s.successHits, s.failHits) = _
  rw [copyResults_eq s.results h]

/-- Claim C8 witness on a concrete store. -/
theorem claim_C8_witness :
    (newResultStore ["a"]).snapshot =
      ((newResultStore ["a"]).results, (newResultStore ["a"]).successHits,
        (newResultStore ["a"]).failHits) ∧
    (newResultStore ["a"]).snapshot = (newResultStore ["a"]).snapshot :=
  claim_C8_snapshot_copy (newResultStore ["a"]) (by decide)

/-- Claim C9: the check loop performs one full pass immediately on launch,
before consuming any event (even when no event ever arrives), and a
cancellation signal arriving while the loop is waiting makes it exit
without performing another pass: the final store state is exactly the
state after the passes completed before cancellation. -/
theorem claim_C9_immediate_pass_and_cancel (probes : Nat → String → probeOutcome)
    (targets : List String) (s : resultStore) (es : List loopEvent) (n : Nat) :
    runCheckLoop probes targets s [] = checkOnce (probes 0) 0 targets s ∧
    runCheckLoop probes targets s (.cancel :: es) = checkOnce (probes 0) 0 targets s ∧
    runLoopAux probes targets (.cancel :: es) n s = s :=
  ⟨rfl, rfl, rfl⟩

/-- Claim C10: with a non-empty configured target set, the aggregator over
a snapshot taken right after initialization — before any update — returns
"degraded", because every initial entry is the zero-value result with
status code 0. -/
theorem claim_C10_initial_degraded (targets : List String) (h : targets ≠ []) :
    deriveStatus (newResultStore targets).snapshot.1 = "degraded" := by
  have hOK := newResultStore_keysOK targets
  show deriveStatus (copyResults (newResultStore targets).results) = "degraded"
  rw [copyResults_eq _ hOK.1]
  rcases deriveStatus_cases (newResultStore targets).results with hc | hc
  · exfalso
    obtain ⟨t, ts, rfl⟩ := List.exists_cons_of_ne_nil h
    have ht : t ∈ mapKeys (newResultStore (t :: ts)).results :=
      (hOK.2 t).mpr (List.mem_cons_self t ts)
    unfold mapKeys at ht
    rcases List.mem_map.mp ht with ⟨p, hp, hpt⟩
    have hv := initStore_foldl_values (t :: ts) [] (by simp) p hp
    exact ((deriveStatus_healthy_iff _).mp hc p hp).2.2 hv.1
  · exact hc

/-- Claim C10 witness at one target. -/
theorem claim_C10_witness :
    deriveStatus (newResultStore ["a"]).snapshot.1 = "degraded" :=
  claim_C10_initial_degraded ["a"] (by decide)

end Syscheck
